import Mathlib

/-!
Verification of the qtable_v visualization client against its specification.

The embedded definitions translate the TypeScript client sources:
* `src/frontend/src/types.ts` — the data model (cells, actions, QTable, config);
* `src/frontend/src/api.ts` — the `WSClient` control-channel guards;
* `src/frontend/src/components/CanvasGrid.tsx` — the best-action arrow choice;
* the App component (`src/unnamed/part_002`) — the streaming-message handler
  `onMessageRef`, the `handleTurbo` request sequence, the curve windowing and
  the `handleCellAction` grid editing.

Numeric values that are IEEE doubles in the source are embedded as rationals:
every operation the claims mention (comparison, max, multiplication by
constants) is exact, so the rational embedding is faithful for them.
-/

namespace QV

/-- The four discrete actions (`Action` enum in types.ts). -/
inductive Action : Type
  | UP
  | DOWN
  | LEFT
  | RIGHT
deriving DecidableEq, Repr

/-- The learning algorithm selector (`Algorithm` enum in types.ts). -/
inductive Algorithm : Type
  | Q_LEARNING
  | SARSA
deriving DecidableEq, Repr

/-- The reward strategy selector (`RewardStrategy` enum in types.ts). -/
inductive RewardStrategy : Type
  | COLLECT_ALL_REWARDS
  | MINIMIZE_STEPS
deriving DecidableEq, Repr

/-- The cell palette (`CellType` in types.ts). A painted bonus cell is stored
as the string `bonus:<value>`, the others as their literal names. -/
inductive CellType : Type
  | empty
  | wall
  | start
  | target
  | trap
  | bonus
deriving DecidableEq, Repr

/-- The string stored in the grid for a non-bonus cell type (the enum values
in types.ts are exactly these strings). -/
def cellTypeStr : CellType → String
  | CellType.empty => "empty"
  | CellType.wall => "wall"
  | CellType.start => "start"
  | CellType.target => "target"
  | CellType.trap => "trap"
  | CellType.bonus => "bonus"

/-- A full record of action values for one state
(`Record<Action, number>` in types.ts; the spec says all four keys are
always present). -/
structure ActionValues where
  UP : ℚ
  DOWN : ℚ
  LEFT : ℚ
  RIGHT : ℚ
deriving DecidableEq, Repr

/-- A QTable is a JS object keyed by `"x,y"` strings: a key is either absent
or mapped to an ActionValues record (types.ts `QTable`). -/
def QTable : Type := String → Option ActionValues

/-- Agent position `{x, y}` (types.ts `AgentPos`). -/
structure AgentPos where
  x : Nat
  y : Nat
deriving DecidableEq, Repr

/-- The grid environment (types.ts `GridState`): `cells[y][x]` is a cell
string. -/
structure Env where
  width : Nat
  height : Nat
  cells : List (List String)
deriving Repr

/-- Full simulation snapshot held by the client (types.ts
`SimulationState`). -/
structure SimulationState where
  env : Env
  agent_pos : AgentPos
  q_table : QTable
  episode : Nat
  steps : Nat
  total_reward : ℚ
  epsilon : ℚ
  update_version : Nat

/-- One point of the learning curve (types.ts `LearningCurvePoint`). -/
structure LearningCurvePoint where
  episode : Nat
  reward : ℚ
  steps : Nat
deriving DecidableEq, Repr

/-- Hyperparameter/setup configuration (types.ts `SetupConfig`). -/
structure SetupConfig where
  width : Nat
  height : Nat
  cells : Option (List (List String))
  alpha : ℚ
  gamma : ℚ
  epsilon : ℚ
  epsilon_decay : ℚ
  min_epsilon : ℚ
  algorithm : Algorithm
  step_penalty : ℚ
  strategy : RewardStrategy
  allowed_actions : Option (List Action)
deriving DecidableEq, Repr

/-- Read `cells[y][x]` where row `y` exists: an `x` past the row's end is JS
`undefined`, which compares unequal to every cell string, embedded as `""`.
A read of a missing row (`y` past the row count) throws a TypeError in JS;
every site that can hit that case is guarded explicitly (`handleCellAction`'s
no-op check, `clearMatching`), so this total read is only relied on where
the row exists. -/
def getCell (cells : List (List String)) (x y : Nat) : String :=
  (cells.getD y []).getD x ""

/-- Write `cells[y][x] := v` (the App always copies the touched row first, so
the functional update is the exact effect). Out-of-range writes are dropped. -/
def setCell (cells : List (List String)) (x y : Nat) (v : String) :
    List (List String) :=
  cells.set y ((cells.getD y []).set x v)

/-- `Object.assign(old, delta)`: every key present in `delta` is overwritten
with `delta`'s value, every other key keeps its old binding
(App `onMessageRef`, the `q_delta` branch). -/
def mergeDelta (old delta : QTable) : QTable :=
  fun k =>
    match delta k with
    | some v => some v
    | none => old k

/-- The QTable part of an `update` message (App `onMessageRef`): a present
`q_delta` is merged key-by-key; otherwise a present `q_table` replaces the
table wholesale; otherwise the table is untouched. -/
def applyQ (old : QTable) (q_delta q_table : Option QTable) : QTable :=
  match q_delta with
  | some d => mergeDelta old d
  | none =>
    match q_table with
    | some t => t
    | none => old

/-- The body of an `update` streaming message (the fields `onMessageRef`
reads; optional fields are `Option`/`Bool` mirroring JS truthiness tests). -/
structure UpdateMsg where
  agent_pos : AgentPos
  q_delta : Option QTable
  q_table : Option QTable
  episode : Nat
  steps : Nat
  total_reward : ℚ
  epsilon : ℚ
  grid_update : Option AgentPos
  respawn_bonuses : Bool
  full_grid : Option (List (List String))
  episode_done : Bool
  episode_reward : ℚ

/-- A streaming message: tagged `update` or `error` (App `onMessageRef`
dispatches on `data.type`). -/
inductive Msg : Type
  | update (u : UpdateMsg)
  | error (message : String)

/-- The client-side App state touched by the message handler. -/
structure ClientState where
  state : Option SimulationState
  curve : List LearningCurvePoint
  isRunning : Bool
  error : Option String
  qTableRef : QTable

/-- JS `list.slice(-n)`: the trailing window of at most `n` elements. -/
def sliceLast (n : Nat) (l : List LearningCurvePoint) :
    List LearningCurvePoint :=
  l.drop (l.length - n)

/-- The `episode_done` branch of `onMessageRef`: append the new point and keep
the last 200 (`[...prev, newPoint].slice(-200)`). -/
def episodeDoneCurveUpdate (prev : List LearningCurvePoint)
    (p : LearningCurvePoint) : List LearningCurvePoint :=
  sliceLast 200 (prev ++ [p])

/-- The curve update in `handleTurbo`:
`[...prev.slice(-100), ...res.curve]`. -/
def turboCurveUpdate (prev curve : List LearningCurvePoint) :
    List LearningCurvePoint :=
  sliceLast 100 prev ++ curve

/-- The per-tick `setState` of `onMessageRef`: overwrite agent position,
QTable reference, counters and epsilon; bump `update_version`
(`uv ? uv + 1 : 1`, which is `uv + 1` for every Nat). -/
def applyTick (u : UpdateMsg) (qt : QTable) (st : SimulationState) :
    SimulationState :=
  { st with
      agent_pos := u.agent_pos
      q_table := qt
      episode := u.episode
      steps := u.steps
      total_reward := u.total_reward
      epsilon := u.epsilon
      update_version := st.update_version + 1 }

/-- Replace the cells of the environment inside a snapshot. -/
def setEnvCells (cells : List (List String)) (st : SimulationState) :
    SimulationState :=
  { st with env := { st.env with cells := cells } }

/-- The `grid_update` branch of `onMessageRef`: revert the single cell at the
given coordinates to `empty` (the row is copied, then
`newCells[y][x] = 'empty'`). -/
def applyGridUpdate :
    Option AgentPos → Option SimulationState → Option SimulationState
  | some p, some st => some (setEnvCells (setCell st.env.cells p.x p.y "empty") st)
  | _, os => os

/-- The `respawn_bonuses` branch of `onMessageRef`: when signalled and the
App's config has cells, reset the env cells to the config's cells. -/
def applyRespawn :
    Bool → Option (List (List String)) → Option SimulationState →
      Option SimulationState
  | true, some cs, some st => some (setEnvCells cs st)
  | _, _, os => os

/-- The `full_grid` branch of `onMessageRef`: an authoritative override of
the env cells. -/
def applyFullGrid :
    Option (List (List String)) → Option SimulationState →
      Option SimulationState
  | some g, some st => some (setEnvCells g st)
  | _, os => os

/-- The streaming-message handler `onMessageRef.current` of the App.
`cfgCells` is the App's `config.cells` (read by the respawn branch). The
handler's sequential `setState` calls read disjoint pieces of the prior
state, so the single record below is its exact net effect. (On
`episode_done` the handler additionally issues a read-only `get_path`
request, which does not change client state.) -/
def onMessage (cfgCells : Option (List (List String))) (s : ClientState) :
    Msg → ClientState
  | Msg.error m => { s with error := some m, isRunning := false }
  | Msg.update u =>
    let qt := applyQ s.qTableRef u.q_delta u.q_table
    { s with
        qTableRef := qt
        state :=
          applyFullGrid u.full_grid
            (applyRespawn u.respawn_bonuses cfgCells
              (applyGridUpdate u.grid_update
                (s.state.map (applyTick u qt))))
        curve :=
          if u.episode_done then
            episodeDoneCurveUpdate s.curve
              ⟨u.episode, u.episode_reward, u.steps⟩
          else s.curve }

/-- C1: a streaming message tagged `error` stops the auto-play loop: after
handling it the client's running flag is cleared (exactly what a pause does
to the client state; stepping is only driven while `isRunning`), and the
error message is surfaced. -/
theorem C1_error_message_stops_running (cfgCells : Option (List (List String)))
    (s : ClientState) (m : String) :
    (onMessage cfgCells s (Msg.error m)).isRunning = false ∧
      (onMessage cfgCells s (Msg.error m)).error = some m :=
  ⟨rfl, rfl⟩

/-- C2: handling an `update` message carrying a sparse delta `q_delta` leaves
the client QTable equal to the old table with exactly the delta's keys
overwritten by the delta's values and every other key unchanged; handling an
`update` message carrying no delta but a full `q_table` replaces the client
QTable wholesale. -/
theorem C2_qtable_delta_merge_and_full_replace
    (cfgCells : Option (List (List String))) (s : ClientState)
    (u : UpdateMsg) (d t : QTable) (k : String) :
    ((onMessage cfgCells s (Msg.update { u with q_delta := some d })).qTableRef k
        = match d k with
          | some v => some v
          | none => s.qTableRef k) ∧
      (onMessage cfgCells s
          (Msg.update { u with q_delta := none, q_table := some t })).qTableRef
        = t :=
  ⟨rfl, rfl⟩

/-- A cell write preserves the number of rows. -/
theorem setCell_length (cells : List (List String)) (x y : Nat) (v : String) :
    (setCell cells x y v).length = cells.length :=
  List.length_set ..

/-- A cell write preserves the length of every row. -/
theorem setCell_rowLength (cells : List (List String)) (x y : Nat) (v : String)
    (y' : Nat) :
    ((setCell cells x y v).getD y' []).length = (cells.getD y' []).length := by
  unfold setCell
  by_cases h : y' = y
  · subst h
    by_cases hy : y' < cells.length
    · simp only [List.getD_eq_getElem?_getD, List.getElem?_set_self hy]
      rcases hl : cells[y']? with _ | row
      · exact absurd hl (by simp [List.getElem?_eq_some_iff, hy])
      · simp [List.length_set]
    · rw [List.set_eq_of_length_le (Nat.le_of_not_lt hy)]
  · simp only [List.getD_eq_getElem?_getD, List.getElem?_set_ne (Ne.symm h)]

/-- Reading back the written cell: in range, `setCell` stores exactly `v`. -/
theorem getCell_setCell_self (cells : List (List String)) (x y : Nat)
    (v : String) (hy : y < cells.length)
    (hx : x < (cells.getD y []).length) :
    getCell (setCell cells x y v) x y = v := by
  unfold getCell setCell
  simp only [List.getD_eq_getElem?_getD, List.getElem?_set_self hy,
    Option.getD_some]
  have hx' : x < (cells[y]?.getD []).length := by
    rwa [List.getD_eq_getElem?_getD] at hx
  simp only [List.getElem?_set_self hx', Option.getD_some]

/-- A cell write leaves every other coordinate unchanged. -/
theorem getCell_setCell_ne (cells : List (List String)) (x y : Nat)
    (v : String) (x' y' : Nat) (h : ¬(x' = x ∧ y' = y)) :
    getCell (setCell cells x y v) x' y' = getCell cells x' y' := by
  unfold getCell setCell
  by_cases hy : y' = y
  · subst hy
    have hx : x' ≠ x := fun hx => h ⟨hx, rfl⟩
    by_cases hlt : y' < cells.length
    · simp only [List.getD_eq_getElem?_getD, List.getElem?_set_self hlt,
        Option.getD_some, List.getElem?_set_ne (Ne.symm hx)]
    · rw [List.set_eq_of_length_le (Nat.le_of_not_lt hlt)]
  · simp only [List.getD_eq_getElem?_getD, List.getElem?_set_ne (Ne.symm hy)]

/-- C4: handling an `update` message that carries a `grid_update` at `(x, y)`
(and, per the protocol, none of the alternative grid fields
`respawn_bonuses`/`full_grid`) sets exactly the cell at `(x, y)` to `empty`
and leaves every other cell, the row count, every row length and the grid's
`width`/`height` unchanged. -/
theorem C4_grid_update_reverts_single_cell
    (cfgCells : Option (List (List String))) (s : ClientState) (u : UpdateMsg)
    (p : AgentPos) (st : SimulationState)
    (hg : u.grid_update = some p)
    (hr : u.respawn_bonuses = false)
    (hf : u.full_grid = none)
    (hs : s.state = some st)
    (hy : p.y < st.env.cells.length)
    (hx : p.x < (st.env.cells.getD p.y []).length) :
    ∃ st', (onMessage cfgCells s (Msg.update u)).state = some st' ∧
      st'.env.width = st.env.width ∧
      st'.env.height = st.env.height ∧
      st'.env.cells.length = st.env.cells.length ∧
      (∀ y', (st'.env.cells.getD y' []).length
          = (st.env.cells.getD y' []).length) ∧
      getCell st'.env.cells p.x p.y = "empty" ∧
      (∀ x' y', ¬(x' = p.x ∧ y' = p.y) →
        getCell st'.env.cells x' y' = getCell st.env.cells x' y') := by
  refine ⟨setEnvCells (setCell st.env.cells p.x p.y "empty")
    (applyTick u (applyQ s.qTableRef u.q_delta u.q_table) st), ?_, rfl, rfl,
    setCell_length .., fun y' => setCell_rowLength _ _ _ _ y',
    getCell_setCell_self _ _ _ _ hy hx,
    fun x' y' h => getCell_setCell_ne _ _ _ _ _ _ h⟩
  simp only [onMessage, hg, hr, hf, hs, Option.map_some', applyGridUpdate,
    applyRespawn, applyFullGrid]
  rfl

/-- A concrete instance of C4: a 2×2 grid, `grid_update` at `(1, 0)`. -/
def c4Msg : UpdateMsg :=
  { agent_pos := ⟨0, 0⟩
    q_delta := none
    q_table := none
    episode := 3
    steps := 7
    total_reward := -2
    epsilon := 1/10
    grid_update := some ⟨1, 0⟩
    respawn_bonuses := false
    full_grid := none
    episode_done := false
    episode_reward := 0 }

/-- A concrete 2×2 snapshot with a bonus cell at `(1, 0)`. -/
def c4State : SimulationState :=
  { env := { width := 2, height := 2
             cells := [["start", "bonus:20"], ["empty", "target"]] }
    agent_pos := ⟨0, 0⟩
    q_table := fun _ => none
    episode := 3
    steps := 6
    total_reward := -1
    epsilon := 1/10
    update_version := 5 }

/-- A concrete client state holding `c4State`. -/
def c4Client : ClientState :=
  { state := some c4State
    curve := []
    isRunning := true
    error := none
    qTableRef := fun _ => none }

/-- Witness for C4 at the concrete 2×2 instance. -/
theorem C4_grid_update_reverts_single_cell_witness :
    (c4Msg.grid_update = some ⟨1, 0⟩ ∧ c4Msg.respawn_bonuses = false ∧
      c4Msg.full_grid = none ∧ c4Client.state = some c4State ∧
      (0 : Nat) < c4State.env.cells.length ∧
      (1 : Nat) < (c4State.env.cells.getD 0 []).length) ∧
    (∃ st', (onMessage none c4Client (Msg.update c4Msg)).state = some st' ∧
      st'.env.width = c4State.env.width ∧
      st'.env.height = c4State.env.height ∧
      st'.env.cells.length = c4State.env.cells.length ∧
      (∀ y', (st'.env.cells.getD y' []).length
          = (c4State.env.cells.getD y' []).length) ∧
      getCell st'.env.cells 1 0 = "empty" ∧
      (∀ x' y', ¬(x' = 1 ∧ y' = 0) →
        getCell st'.env.cells x' y' = getCell c4State.env.cells x' y')) :=
  ⟨⟨rfl, rfl, rfl, rfl, by decide, by decide⟩,
    C4_grid_update_reverts_single_cell none c4Client c4Msg ⟨1, 0⟩ c4State
      rfl rfl rfl rfl (by decide) (by decide)⟩

/-- C7 counterexample: there is no single fixed bound that caps the retained
learning-curve list after both appending operations — the turbo branch keeps
the whole incoming batch, so any candidate bound `B` is exceeded by a batch
of `B + 1` points merged into an empty list. -/
theorem C7_counterexample_no_fixed_bound :
    ¬ ∃ B : Nat,
      (∀ prev p, (episodeDoneCurveUpdate prev p).length ≤ B) ∧
      (∀ prev curve, (turboCurveUpdate prev curve).length ≤ B) := by
  rintro ⟨B, -, h⟩
  have hB := h [] (List.replicate (B + 1) ⟨0, 0, 0⟩)
  simp only [turboCurveUpdate, sliceLast, List.length_nil, Nat.zero_sub,
    List.drop_nil, List.nil_append, List.length_replicate] at hB
  omega

/-- C7 amended: each appending operation is separately a trailing window with
the oldest points dropped — `episode_done` retains at most the last 200
points (always a suffix of the appended list), while a turbo batch retains at
most the last 100 previous points followed by the entire incoming batch, a
bound of `100 + batch size` rather than a fixed constant. -/
theorem C7_amended_trailing_windows :
    (∀ prev p, (episodeDoneCurveUpdate prev p).length ≤ 200 ∧
      episodeDoneCurveUpdate prev p <:+ prev ++ [p]) ∧
    (∀ prev curve, (turboCurveUpdate prev curve).length ≤ 100 + curve.length ∧
      sliceLast 100 prev <:+ prev) := by
  constructor
  · intro prev p
    constructor
    · simp only [episodeDoneCurveUpdate, sliceLast, List.length_drop]
      omega
    · exact List.drop_suffix ..
  · intro prev curve
    constructor
    · simp only [turboCurveUpdate, sliceLast, List.length_append,
        List.length_drop]
      omega
    · exact List.drop_suffix ..

/-- `Math.max(q_u, q_d, q_l, q_r)` over the four action values
(CanvasGrid `drawAll`). -/
def qMax (q : ActionValues) : ℚ :=
  max (max (max q.UP q.DOWN) q.LEFT) q.RIGHT

/-- The best-action arrow drawn for a cell (CanvasGrid `drawAll`): the
sequential `if`/`else if` chain compares `UP`, `DOWN`, `LEFT`, `RIGHT`
against the maximum and keeps the first hit. -/
def bestArrow (q : ActionValues) : Option Action :=
  if q.UP = qMax q then some Action.UP
  else if q.DOWN = qMax q then some Action.DOWN
  else if q.LEFT = qMax q then some Action.LEFT
  else if q.RIGHT = qMax q then some Action.RIGHT
  else none

/-- Project an action's value out of an ActionValues record. -/
def actionValue (q : ActionValues) : Action → ℚ
  | Action.UP => q.UP
  | Action.DOWN => q.DOWN
  | Action.LEFT => q.LEFT
  | Action.RIGHT => q.RIGHT

/-- The specification's tie-break rule, stated in its own words: the first
action in the fixed priority order `UP, DOWN, LEFT, RIGHT` whose value equals
the maximum. -/
def priorityFirstMax (q : ActionValues) : Option Action :=
  [Action.UP, Action.DOWN, Action.LEFT, Action.RIGHT].find?
    (fun a => actionValue q a = qMax q)

/-- The maximum of the four action values is attained by one of them. -/
theorem qMax_attained (q : ActionValues) :
    q.UP = qMax q ∨ q.DOWN = qMax q ∨ q.LEFT = qMax q ∨ q.RIGHT = qMax q := by
  unfold qMax
  rcases max_choice (max (max q.UP q.DOWN) q.LEFT) q.RIGHT with h | h
  · rcases max_choice (max q.UP q.DOWN) q.LEFT with h2 | h2
    · rcases max_choice q.UP q.DOWN with h3 | h3
      · exact Or.inl (h.trans (h2.trans h3)).symm
      · exact Or.inr (Or.inl (h.trans (h2.trans h3)).symm)
    · exact Or.inr (Or.inr (Or.inl (h.trans h2).symm))
  · exact Or.inr (Or.inr (Or.inr h.symm))

/-- C5: the best-action arrow picks the action of maximum value with ties
broken by the fixed priority order `UP, DOWN, LEFT, RIGHT` — it equals the
first action in that order whose value is the maximum. -/
theorem C5_best_arrow_priority_tie_break (q : ActionValues) :
    bestArrow q = priorityFirstMax q := by
  unfold bestArrow priorityFirstMax
  by_cases h1 : q.UP = qMax q
  · simp [List.find?, actionValue, h1]
  · by_cases h2 : q.DOWN = qMax q
    · simp [List.find?, actionValue, h1, h2]
    · by_cases h3 : q.LEFT = qMax q
      · simp [List.find?, actionValue, h1, h2, h3]
      · by_cases h4 : q.RIGHT = qMax q
        · simp [List.find?, actionValue, h1, h2, h3, h4]
        · rcases qMax_attained q with h | h | h | h <;> simp_all

/-- An outbound request issued by the App (HTTP calls of `APIClient` and the
websocket control channel). -/
inductive Request : Type
  | wsPlay
  | wsPause
  | wsSetSpeed (speed : Nat)
  | updateConfig (config : SetupConfig)
  | turbo (episodes : Nat)
  | getState
  | getPath
  | setup (config : SetupConfig)
deriving DecidableEq, Repr

/-- The ordered request sequence of `handleTurbo` (App): pause the auto-play
channel, push the current config (`await APIClient.updateConfig(config)`),
then issue the turbo request; when the response status is `done`, reload the
state and the path. Each `await` completes before the next request is
issued, so the list order is the completion order. -/
def handleTurboRequests (config : SetupConfig) (count : Nat)
    (resStatus : String) : List Request :=
  [Request.wsPause, Request.updateConfig config, Request.turbo count] ++
    (if resStatus = "done" then [Request.getState, Request.getPath] else [])

/-- C6: every invocation of the turbo handler sends and completes an
`update_config` request carrying the current config before the turbo request
is issued: the config push sits at index 1, the turbo request at index 2,
and no turbo request occurs at any earlier index. -/
theorem C6_turbo_pushes_config_first (config : SetupConfig) (count : Nat)
    (resStatus : String) :
    (handleTurboRequests config count resStatus)[1]?
        = some (Request.updateConfig config) ∧
      (handleTurboRequests config count resStatus)[2]?
        = some (Request.turbo count) ∧
      ∀ i, (handleTurboRequests config count resStatus)[i]?
          = some (Request.turbo count) → 2 ≤ i := by
  refine ⟨by simp [handleTurboRequests], by simp [handleTurboRequests], ?_⟩
  intro i h
  rcases i with _ | _ | n
  · simp [handleTurboRequests] at h
  · simp [handleTurboRequests] at h
  · omega

/-- The websocket readiness states of the browser `WebSocket` API. -/
inductive WSReadyState : Type
  | CONNECTING
  | OPEN
  | CLOSING
  | CLOSED
deriving DecidableEq, Repr

/-- A control message the client can send on the websocket channel. -/
inductive WSOut : Type
  | play
  | pause
  | set_speed (speed : Nat)
deriving DecidableEq, Repr

/-- `WSClient.play` (api.ts): sends `{action: 'play'}` only when the socket
exists and its readyState is OPEN; otherwise it sends nothing and returns
normally (the whole body is the guarded `if`, so no error is raised). -/
def wsPlaySent (ws : Option WSReadyState) : List WSOut :=
  if ws = some WSReadyState.OPEN then [WSOut.play] else []

/-- `WSClient.pause` (api.ts): same guard as `play`. -/
def wsPauseSent (ws : Option WSReadyState) : List WSOut :=
  if ws = some WSReadyState.OPEN then [WSOut.pause] else []

/-- `WSClient.setSpeed` (api.ts): same guard, with the speed payload. -/
def wsSetSpeedSent (ws : Option WSReadyState) (speed : Nat) : List WSOut :=
  if ws = some WSReadyState.OPEN then [WSOut.set_speed speed] else []

/-- C10: when the websocket is absent, connecting, closing or closed (anything
but OPEN), the channel control operations `play`, `pause` and `set_speed`
send nothing — the command is silently dropped, not queued. -/
theorem C10_controls_dropped_when_not_open (ws : Option WSReadyState)
    (h : ws ≠ some WSReadyState.OPEN) :
    wsPlaySent ws = [] ∧ wsPauseSent ws = [] ∧
      ∀ speed, wsSetSpeedSent ws speed = [] := by
  refine ⟨?_, ?_, fun speed => ?_⟩ <;>
    simp [wsPlaySent, wsPauseSent, wsSetSpeedSent, h]

/-- Witness for C10 with an absent socket (`this.ws === null`). -/
theorem C10_controls_dropped_when_not_open_witness :
    (none ≠ some WSReadyState.OPEN) ∧
      (wsPlaySent none = [] ∧ wsPauseSent none = [] ∧
        ∀ speed, wsSetSpeedSent none speed = []) :=
  ⟨by decide, C10_controls_dropped_when_not_open none (by decide)⟩

/-- Modelled from the spec: the backend TabularAgent's per-episode epsilon
decay is not part of the sources under `src/` (only the frontend client is);
spec §4.2 gives the rule applied after each completed episode:
`epsilon = max(min_epsilon, epsilon * epsilon_decay)`. -/
def decayEpsilonOnce (min_epsilon epsilon_decay eps : ℚ) : ℚ :=
  max min_epsilon (eps * epsilon_decay)

/-- Modelled from the spec: the exploration rate after `k` completed
episodes, i.e. the per-episode update iterated `k` times from the initial
rate `eps0`. -/
def epsilonAfter (min_epsilon epsilon_decay eps0 : ℚ) : Nat → ℚ
  | 0 => eps0
  | k + 1 =>
    decayEpsilonOnce min_epsilon epsilon_decay
      (epsilonAfter min_epsilon epsilon_decay eps0 k)

/-- C9: for an initial rate at or above the floor, a decay factor in `[0, 1]`
and a nonneg floor (the spec's hyperparameter ranges), the rate after `k`
completed episodes is exactly `max(min_epsilon, eps0 * epsilon_decay ^ k)`.
The rational embedding makes the identity exact. -/
theorem C9_epsilon_decay_closed_form (m d eps0 : ℚ) (k : Nat)
    (hm : 0 ≤ m) (hme : m ≤ eps0) (hd0 : 0 ≤ d) (hd1 : d ≤ 1) :
    epsilonAfter m d eps0 k = max m (eps0 * d ^ k) := by
  induction k with
  | zero => simp [epsilonAfter, max_eq_right hme]
  | succ k ih =>
    rw [epsilonAfter, decayEpsilonOnce, ih, max_mul_of_nonneg _ _ hd0,
      ← max_assoc, max_eq_left (mul_le_of_le_one_right hm hd1),
      pow_succ, ← mul_assoc]

/-- Witness for C9: `eps0 = 1`, `decay = 1/2`, floor `1/8`, `k = 4`; the
floor is hit (`1/16 < 1/8`) and the closed form yields `1/8`. -/
theorem C9_epsilon_decay_closed_form_witness :
    ((0 : ℚ) ≤ 1/8 ∧ (1/8 : ℚ) ≤ 1 ∧ (0 : ℚ) ≤ 1/2 ∧ (1/2 : ℚ) ≤ 1) ∧
      epsilonAfter (1/8) (1/2) 1 4 = max (1/8) (1 * (1/2 : ℚ) ^ 4) :=
  ⟨⟨by norm_num, by norm_num, by norm_num, by norm_num⟩,
    C9_epsilon_decay_closed_form (1/8) (1/2) 1 4 (by norm_num) (by norm_num)
      (by norm_num) (by norm_num)⟩

/-- The string painted by a brush (App `handleCellAction`):
`drawMode === 'bonus' ? bonus:<value> : drawMode`. -/
def brushValue : CellType → Int → String
  | CellType.bonus, v => "bonus:" ++ toString v
  | c, _ => cellTypeStr c

/-- One pass of the clearing loop over row `ry` (the inner `for rx` loop of
`handleCellAction`): every cell of the row whose string equals the brush name
is reset to `empty`. Callers guarantee row `ry` exists; within the row, a
read past its end is JS `undefined`, which compares unequal to every brush
name (embedded as `""` by `getCell`). -/
def clearRow (cs : List (List String)) (width ry : Nat) (v : String) :
    List (List String) :=
  (List.range width).foldl
    (fun cs2 rx =>
      if getCell cs2 rx ry = v then setCell cs2 rx ry "empty" else cs2)
    cs

/-- The clearing pass of `handleCellAction` for the `start`/`target` brushes:
the nested `for` loops over `[0, height) x [0, width)`. The loop is fallible:
when `ry` reaches a missing row (`ry >= newCells.length`, reachable when the
config height exceeds the actual row count) the JS read `newCells[ry][rx]`
is `undefined[rx]` and throws a TypeError, embedded as `none`; with
`width = 0` the inner body never runs, so nothing is read and no throw can
occur. -/
def clearMatching (cells : List (List String)) (width height : Nat)
    (v : String) : Option (List (List String)) :=
  (List.range height).foldl
    (fun ocs ry =>
      match ocs with
      | none => none
      | some cs =>
        if ry < cs.length ∨ width = 0 then some (clearRow cs width ry v)
        else none)
    (some cells)

/-- The App's `handleCellAction`, as the pair of the resulting config and the
requests it issues, or `none` when the JS handler throws. While running it
returns immediately with nothing done; otherwise it edits a copy of
`config.cells` (falling back to the state's cells). The no-op check reads
`newCells[y][x]`, which throws when row `y` is missing (`none` branch);
past it, the handler returns early when the cell already holds the brush
value, runs the fallible clearing pass for the `start`/`target` brushes,
paints the cell (row `y` is guaranteed present; an `x` beyond the row length
would extend the JS row, a case `setCell` drops and every theorem below
excludes by bounding `x`), and on a click (not a drag) syncs the new config
with a `setup` request. The `width`/`height` fall back to the state's
dimensions when the config's are zero (JS `config.width ||
state.env.width`). -/
def handleCellAction (isRunning : Bool) (config : SetupConfig)
    (stateCells : List (List String)) (stateWidth stateHeight : Nat)
    (drawMode : CellType) (bonusValue : Int) (x y : Nat) (isDrag : Bool) :
    Option (SetupConfig × List Request) :=
  if isRunning then some (config, [])
  else
    let cells0 := config.cells.getD stateCells
    if y < cells0.length then
      let tv := brushValue drawMode bonusValue
      if getCell cells0 x y = tv then some (config, [])
      else
        let w := if config.width = 0 then stateWidth else config.width
        let h := if config.height = 0 then stateHeight else config.height
        let ocells1 :=
          if drawMode = CellType.start ∨ drawMode = CellType.target then
            clearMatching cells0 w h (cellTypeStr drawMode)
          else some cells0
        ocells1.map (fun cells1 =>
          let newCells := setCell cells1 x y tv
          let newConfig := { config with cells := some newCells }
          (newConfig, if isDrag then [] else [Request.setup newConfig]))
    else none

/-- Number of cells holding exactly the string `v`. -/
def countVal (cells : List (List String)) (v : String) : Nat :=
  (cells.map (fun row => row.countP (fun c => c = v))).sum

/-- A fold whose step preserves the grid shape preserves the grid shape. -/
theorem foldl_shape {β : Type}
    (f : List (List String) → β → List (List String))
    (hf : ∀ cs b, (f cs b).length = cs.length ∧
      ∀ y', ((f cs b).getD y' []).length = (cs.getD y' []).length) :
    ∀ (l : List β) (cs : List (List String)),
      (l.foldl f cs).length = cs.length ∧
        ∀ y', ((l.foldl f cs).getD y' []).length = (cs.getD y' []).length
  | [], cs => by
    constructor
    · rfl
    · intro y'
      rfl
  | b :: l, cs => by
    have h1 := hf cs b
    have h2 := foldl_shape f hf l (f cs b)
    exact ⟨h2.1.trans h1.1, fun y' => (h2.2 y').trans (h1.2 y')⟩

/-- One clearing pass over a row changes cell contents only: the row count
and every row length are preserved. -/
theorem clearRow_shape (cs : List (List String)) (w ry : Nat) (v : String) :
    (clearRow cs w ry v).length = cs.length ∧
      ∀ y', ((clearRow cs w ry v).getD y' []).length
        = (cs.getD y' []).length := by
  unfold clearRow
  refine foldl_shape _ (fun cs2 rx => ?_) _ cs
  split
  · exact ⟨setCell_length .., fun y' => setCell_rowLength _ _ _ _ y'⟩
  · exact ⟨rfl, fun _ => rfl⟩

/-- A fold over a fallible step that propagates `none` stays `none`. -/
theorem foldl_none {β : Type}
    (f : Option (List (List String)) → β → Option (List (List String)))
    (hnone : ∀ b, f none b = none) :
    ∀ l : List β, l.foldl f none = none
  | [] => rfl
  | b :: l => by
    rw [List.foldl_cons, hnone b]
    exact foldl_none f hnone l

/-- A fallible fold whose successful steps preserve the grid shape yields a
shape-preserving result whenever it succeeds. -/
theorem foldl_opt_shape {β : Type}
    (f : Option (List (List String)) → β → Option (List (List String)))
    (hnone : ∀ b, f none b = none)
    (hsome : ∀ cs b cs', f (some cs) b = some cs' →
      cs'.length = cs.length ∧
        ∀ y', (cs'.getD y' []).length = (cs.getD y' []).length) :
    ∀ (l : List β) (cs cs' : List (List String)),
      l.foldl f (some cs) = some cs' →
      cs'.length = cs.length ∧
        ∀ y', (cs'.getD y' []).length = (cs.getD y' []).length
  | [], cs, cs', h => by
    obtain rfl : cs = cs' := Option.some.inj h
    exact ⟨rfl, fun _ => rfl⟩
  | b :: l, cs, cs', h => by
    rw [List.foldl_cons] at h
    rcases hst : f (some cs) b with _ | cs1
    · rw [hst, foldl_none f hnone l] at h
      exact absurd h (by simp)
    · rw [hst] at h
      have h1 := hsome cs b cs1 hst
      have h2 := foldl_opt_shape f hnone hsome l cs1 cs' h
      exact ⟨h2.1.trans h1.1, fun y' => (h2.2 y').trans (h1.2 y')⟩

/-- A successful clearing pass changes cell contents only: the row count and
every row length are preserved. -/
theorem clearMatching_shape (cells : List (List String)) (w h : Nat)
    (v : String) (cells1 : List (List String))
    (hc : clearMatching cells w h v = some cells1) :
    cells1.length = cells.length ∧
      ∀ y', (cells1.getD y' []).length = (cells.getD y' []).length := by
  unfold clearMatching at hc
  refine foldl_opt_shape _ (fun b => rfl) (fun cs b cs' hstep => ?_) _ _ _ hc
  have hstep' :
      (if b < cs.length ∨ w = 0 then some (clearRow cs w b v) else none)
        = some cs' := hstep
  by_cases hcond : b < cs.length ∨ w = 0
  · rw [if_pos hcond] at hstep'
    obtain rfl : clearRow cs w b v = cs' := Option.some.inj hstep'
    exact clearRow_shape cs w b v
  · rw [if_neg hcond] at hstep'
    exact absurd hstep' (by simp)

/-- C8: a cell edit invoked while the simulation is running is a complete
no-op: the handler returns normally (it cannot throw, the guard is the first
statement), the configuration is unchanged and no request is issued. -/
theorem C8_edits_ignored_while_running (config : SetupConfig)
    (stateCells : List (List String)) (stateWidth stateHeight : Nat)
    (drawMode : CellType) (bonusValue : Int) (x y : Nat) (isDrag : Bool) :
    handleCellAction true config stateCells stateWidth stateHeight drawMode
      bonusValue x y isDrag = some (config, []) :=
  rfl

/-- A concrete 2×2 config with exactly one start and one target, for the C3
counterexample. -/
def c3Config : SetupConfig :=
  { width := 2
    height := 2
    cells := some [["start", "empty"], ["empty", "target"]]
    alpha := 1/10
    gamma := 9/10
    epsilon := 1/5
    epsilon_decay := 199/200
    min_epsilon := 1/100
    algorithm := Algorithm.Q_LEARNING
    step_penalty := -1
    strategy := RewardStrategy.MINIMIZE_STEPS
    allowed_actions := none }

/-- The result of painting a `wall` at `(0, 0)` of `c3Config` by a click. -/
def c3Result : SetupConfig × List Request :=
  ({ c3Config with cells := some [["wall", "empty"], ["empty", "target"]] },
    [Request.setup
      { c3Config with cells := some [["wall", "empty"], ["empty", "target"]] }])

/-- C3 counterexample: painting a `wall` over the sole `start` cell of a grid
with exactly one start and one target completes normally and is accepted,
not rejected — the resulting grid has zero `start` cells and differs from
the original. -/
theorem C3_counterexample_wall_over_sole_start :
    handleCellAction false c3Config [] 2 2 CellType.wall 20 0 0 false
        = some c3Result ∧
      countVal (c3Result.1.cells.getD []) "start" = 0 ∧
      c3Result.1.cells ≠ c3Config.cells :=
  ⟨rfl, by decide, by decide⟩

/-- The painted pair: the brushed cell holds the brush value, and if that
value differs from the old cell the stored grid has changed. -/
theorem edit_result_applied (config : SetupConfig)
    (stateCells cells1 : List (List String)) (tv : String) (x y : Nat)
    (reqs : List Request)
    (hy1 : y < cells1.length) (hx1 : x < (cells1.getD y []).length) :
    getCell
        ((({ config with cells := some (setCell cells1 x y tv) }
          : SetupConfig), reqs).1.cells.getD stateCells) x y = tv ∧
      (getCell (config.cells.getD stateCells) x y ≠ tv →
        (({ config with cells := some (setCell cells1 x y tv) }
          : SetupConfig), reqs).1.cells ≠ config.cells) := by
  have hget := getCell_setCell_self cells1 x y tv hy1 hx1
  constructor
  · exact hget
  · intro hne2 habs
    have habs' : some (setCell cells1 x y tv) = config.cells := habs
    rw [← habs', Option.getD_some] at hne2
    exact hne2 hget

/-- C3 amended: grid edits perform no start/target validation. An in-bounds
edit made while not running either throws mid-clearing (only reachable with
a `start`/`target` brush whose effective height exceeds the grid's row
count, applying nothing) or completes; every completed edit is applied: the
brushed cell afterwards holds the brush value, and whenever that value
differs from the old cell the stored grid has changed — in particular an
edit removing the last `start` or `target` (as in the counterexample) goes
through instead of being rejected. -/
theorem C3_amended_edit_applied_not_rejected (config : SetupConfig)
    (stateCells : List (List String)) (stateWidth stateHeight : Nat)
    (drawMode : CellType) (bonusValue : Int) (x y : Nat) (isDrag : Bool)
    (res : SetupConfig × List Request)
    (hy : y < (config.cells.getD stateCells).length)
    (hx : x < ((config.cells.getD stateCells).getD y []).length)
    (hres : handleCellAction false config stateCells stateWidth stateHeight
        drawMode bonusValue x y isDrag = some res) :
    getCell (res.1.cells.getD stateCells) x y
        = brushValue drawMode bonusValue ∧
      (getCell (config.cells.getD stateCells) x y
          ≠ brushValue drawMode bonusValue →
        res.1.cells ≠ config.cells) := by
  simp only [handleCellAction] at hres
  rw [if_neg Bool.false_ne_true, if_pos hy] at hres
  by_cases hne :
      getCell (config.cells.getD stateCells) x y
        = brushValue drawMode bonusValue
  · rw [if_pos hne] at hres
    obtain rfl : ((config, []) : SetupConfig × List Request) = res :=
      Option.some.inj hres
    exact ⟨hne, fun hcontra => absurd hne hcontra⟩
  · rw [if_neg hne] at hres
    by_cases hbrush : drawMode = CellType.start ∨ drawMode = CellType.target
    · rw [if_pos hbrush] at hres
      rcases hcm : clearMatching (config.cells.getD stateCells)
          (if config.width = 0 then stateWidth else config.width)
          (if config.height = 0 then stateHeight else config.height)
          (cellTypeStr drawMode) with _ | cells1
      · rw [hcm] at hres
        exact absurd hres (by simp)
      · rw [hcm, Option.map_some'] at hres
        obtain rfl := Option.some.inj hres
        have hsh := clearMatching_shape _ _ _ _ _ hcm
        have hy1 : y < cells1.length := by rw [hsh.1]; exact hy
        have hx1 : x < (cells1.getD y []).length := by
          rw [hsh.2 y]; exact hx
        exact edit_result_applied config stateCells cells1
          (brushValue drawMode bonusValue) x y _ hy1 hx1
    · rw [if_neg hbrush, Option.map_some'] at hres
      obtain rfl := Option.some.inj hres
      exact edit_result_applied config stateCells
        (config.cells.getD stateCells) (brushValue drawMode bonusValue)
        x y _ hy hx

/-- Witness for C3's amended claim at a concrete in-bounds completed edit. -/
theorem C3_amended_edit_applied_not_rejected_witness :
    ((0 : Nat) < (c3Config.cells.getD []).length ∧
      (0 : Nat) < ((c3Config.cells.getD []).getD 0 []).length ∧
      handleCellAction false c3Config [] 2 2 CellType.wall 20 0 0 false
        = some c3Result) ∧
    (getCell (c3Result.1.cells.getD []) 0 0 = brushValue CellType.wall 20 ∧
      (getCell (c3Config.cells.getD []) 0 0 ≠ brushValue CellType.wall 20 →
        c3Result.1.cells ≠ c3Config.cells)) :=
  ⟨⟨by decide, by decide, rfl⟩,
    C3_amended_edit_applied_not_rejected c3Config [] 2 2 CellType.wall 20 0 0
      false c3Result (by decide) (by decide) rfl⟩

end QV
